import Mathlib

/-!
Verification of the `AppHostFlatAdapter` resource-registry and lifecycle
adapter (`apphost.go` of go-astral-js), shallowly embedded in Lean 4.

Modelling conventions:
* Go maps `map[string]*astral.Listener` / `map[string]io.ReadWriteCloser`
  become association lists `List (String × Nat)`; listeners and streams are
  identified by opaque `Nat` handles since the adapter never inspects them.
* A `nil` Go map is `Option.none` at the field; reading a nil map yields
  "not found" (as in Go), writing a key into a nil map panics (as in Go),
  which we model by the registry-write functions returning `Option.none`.
* Calls into the external networking collaborator (register, accept, query,
  read, write, close) are modelled by oracle parameters carrying the result
  the collaborator would return; the `Event` trace records which external
  calls an operation actually issued.
* `uuid.New().String()` is an external generator, modelled as a stream
  `uuids : Nat → String` consumed left to right by the run semantics.
-/

namespace AppHost

/-- Association-list lookup, mirroring Go map indexing `m[k]`. -/
def mapLookup (m : List (String × Nat)) (k : String) : Option Nat :=
  match m with
  | [] => none
  | (k2, v) :: rest => if k2 = k then some v else mapLookup rest k

/-- Association-list key removal, mirroring Go `delete(m, k)`. -/
def mapErase (m : List (String × Nat)) (k : String) : List (String × Nat) :=
  m.filter (fun p => p.1 ≠ k)

/-- Association-list upsert, mirroring Go map assignment `m[k] = v`. -/
def mapInsert (m : List (String × Nat)) (k : String) (v : Nat) :
    List (String × Nat) :=
  (k, v) :: mapErase m k

/-- The `AppHostFlatAdapter` struct: shutdown flag and the two registries.
`none` at a registry field models the Go `nil` map (set by shutdown). -/
structure AdapterState where
  closed : Bool
  listeners : Option (List (String × Nat))
  connections : Option (List (String × Nat))
deriving DecidableEq

/-- `NewAppHostFlatAdapter`: fresh adapter with two empty (allocated) maps. -/
def NewAppHostFlatAdapter : AdapterState :=
  { closed := false, listeners := some [], connections := some [] }

/-- The error classes produced by the adapter: registry misses (Go errors
built at the not-found branches), propagated collaborator errors, and
identity-parse failures. -/
inductive AErr where
  | notFound (msg : String)
  | underlying (msg : String)
  | malformed (msg : String)
deriving DecidableEq

/-- External calls an operation issues, used to state non-interference
properties (an operation that returns early never touches the stream). -/
inductive Event where
  | register (service : String)
  | listenerClose (l : Nat)
  | accept (l : Nat)
  | connClose (c : Nat)
  | connRead (c : Nat)
  | connWrite (c : Nat) (data : List Nat)
  | query (nid : Option Nat) (q : String)
  | queryName (name : String) (q : String)
deriving DecidableEq

/-- `getListener`: under the read lock, return nothing once closed,
otherwise index the listeners map. -/
def getListener (st : AdapterState) (service : String) : Option Nat :=
  if st.closed then none
  else
    match st.listeners with
    | none => none
    | some m => mapLookup m service

/-- `setListener`: under the write lock, no-op once closed; otherwise insert
(`listener ≠ nil`) or delete (`listener = nil`). Inserting into a nil map
panics in Go, modelled as `none`; deleting from a nil map is a no-op. -/
def setListener (st : AdapterState) (service : String) (listener : Option Nat) :
    Option AdapterState :=
  if st.closed then some st
  else
    match listener with
    | some l =>
      match st.listeners with
      | none => none
      | some m => some { st with listeners := some (mapInsert m service l) }
    | none =>
      match st.listeners with
      | none => some st
      | some m => some { st with listeners := some (mapErase m service) }

/-- `getConnection`: same shape as `getListener`, over the connections map. -/
def getConnection (st : AdapterState) (connectionId : String) : Option Nat :=
  if st.closed then none
  else
    match st.connections with
    | none => none
    | some m => mapLookup m connectionId

/-- `setConnection`: same shape as `setListener`, over the connections map. -/
def setConnection (st : AdapterState) (connectionId : String)
    (connection : Option Nat) : Option AdapterState :=
  if st.closed then some st
  else
    match connection with
    | some c =>
      match st.connections with
      | none => none
      | some m => some { st with connections := some (mapInsert m connectionId c) }
    | none =>
      match st.connections with
      | none => some st
      | some m => some { st with connections := some (mapErase m connectionId) }

/-- `CloseAppHostFlatAdapter`: closes every stored listener and connection
(the returned errors are discarded, so the outcome ignores `closeErrs`),
sets both maps to nil and flips the shutdown flag. Returns the new state
and the close calls issued. -/
def CloseAppHostFlatAdapter (st : AdapterState) (closeErrs : Nat → Option String) :
    AdapterState × List Event :=
  let _ := closeErrs
  let levs := (st.listeners.getD []).map (fun p => Event.listenerClose p.2)
  let cevs := (st.connections.getD []).map (fun p => Event.connClose p.2)
  ({ closed := true, listeners := none, connections := none }, levs ++ cevs)

/-- `ServiceRegister`: ask the collaborator to register (`regRes` is the
result of `astral.Register`); on success store the listener. -/
def ServiceRegister (st : AdapterState) (service : String)
    (regRes : Except String Nat) :
    Option (Option AErr × AdapterState × List Event) :=
  match regRes with
  | .error e => some (some (.underlying e), st, [Event.register service])
  | .ok l =>
    (setListener st service (some l)).map
      (fun st2 => (none, st2, [Event.register service]))

/-- `ServiceClose`: look up the listener, call its `Close` (`closeRes` is
that call's result, `none` = success), and — as the source does — remove
the registry entry when `Close` returned a non-nil error. -/
def ServiceClose (st : AdapterState) (service : String)
    (closeRes : Option String) :
    Option (Option AErr × AdapterState × List Event) :=
  match getListener st service with
  | none =>
    some (some (.notFound ("[ServiceClose] not listening on port: " ++ service)),
      st, [])
  | some l =>
    match closeRes with
    | some e =>
      (setListener st service none).map
        (fun st2 => (some (.underlying e), st2, [Event.listenerClose l]))
    | none => some (none, st, [Event.listenerClose l])

/-- `ConnAccept`: look up the listener, call `Accept` (`acceptRes` is its
result), and on success store the stream under the fresh identifier
`uuid` (the value `uuid.New().String()` returned). -/
def ConnAccept (st : AdapterState) (service : String)
    (acceptRes : Except String Nat) (uuid : String) :
    Option (Except AErr String × AdapterState × List Event) :=
  match getListener st service with
  | none =>
    some (.error (.notFound ("[ConnAccept] not listening on port: " ++ service)),
      st, [])
  | some l =>
    match acceptRes with
    | .error e => some (.error (.underlying e), st, [Event.accept l])
    | .ok conn =>
      (setConnection st uuid (some conn)).map
        (fun st2 => (.ok uuid, st2, [Event.accept l]))

/-- `ConnClose`: look up the connection, call its `Close` (`closeRes` is
that call's result), and — as the source does — remove the registry entry
when `Close` returned nil. -/
def ConnClose (st : AdapterState) (connectionId : String)
    (closeRes : Option String) :
    Option (Option AErr × AdapterState × List Event) :=
  match getConnection st connectionId with
  | none =>
    some (some (.notFound ("[ConnClose] not found connection with id: " ++ connectionId)),
      st, [])
  | some c =>
    match closeRes with
    | none =>
      (setConnection st connectionId none).map
        (fun st2 => (none, st2, [Event.connClose c]))
    | some e => some (some (.underlying e), st, [Event.connClose c])

/-- `ConnWrite`: look up the connection and write to it (`writeRes` is the
result of `conn.Write`, `none` = success; the byte count is discarded by
the source). The state is never changed. -/
def ConnWrite (st : AdapterState) (connectionId : String) (data : List Nat)
    (writeRes : Option String) : Option AErr × List Event :=
  match getConnection st connectionId with
  | none =>
    (some (.notFound ("[ConnWrite] not found connection with id: " ++ connectionId)), [])
  | some c =>
    match writeRes with
    | some e => (some (.underlying e), [Event.connWrite c data])
    | none => (none, [Event.connWrite c data])

/-- Buffer size of the `ConnRead` accumulation loop (`make([]byte, 4096)`). -/
def bufSize : Nat := 4096

/-- One result of `conn.Read(buf)`: either `n` bytes delivered into the
buffer (`bytes` with `bytes.length = n ≤ bufSize`), or an error. -/
inductive ReadResult where
  | ok (bytes : List Nat)
  | err (e : String)
deriving DecidableEq

/-- Outcome of the accumulation loop: `done data e` is a return carrying
the accumulated bytes (the deferred `data = string(arr)` assignment runs on
every return path, the error path included); `blocked` means the supplied
sequence of read results was exhausted with the loop still running
(it would block in the next `conn.Read`). -/
inductive ReadOutcome where
  | done (data : List Nat) (e : Option String)
  | blocked
deriving DecidableEq

/-- The `for` loop of `ConnRead`: read; on error return the accumulator
with the error; otherwise append the bytes and return (no error) iff the
read filled less than the whole buffer. -/
def connReadLoop : List ReadResult → List Nat → ReadOutcome
  | [], _ => .blocked
  | .err e :: _, acc => .done acc (some e)
  | .ok bs :: rest, acc =>
    if bs.length < bufSize then .done (acc ++ bs) none
    else connReadLoop rest (acc ++ bs)

/-- `ConnRead`: look up the connection and run the accumulation loop over
the read results the stream yields. The registry is never changed. -/
def ConnRead (st : AdapterState) (connectionId : String)
    (reads : List ReadResult) : Except AErr ReadOutcome × List Event :=
  match getConnection st connectionId with
  | none =>
    (.error (.notFound ("[ConnRead] not found connection with id: " ++ connectionId)), [])
  | some c => (.ok (connReadLoop reads []), [Event.connRead c])

/-- `Query`: with a non-empty identity, first parse it (`parseRes` is the
result of `id.ParsePublicKeyHex`); an empty identity is never parsed and
stands for the zero identity (self/local). Then issue the query
(`queryRes` is the result of `astral.Query`) and on success store the
stream under the fresh identifier `uuid`. -/
def Query (st : AdapterState) (identity qs : String)
    (parseRes : Except String Nat) (queryRes : Except String Nat)
    (uuid : String) :
    Option (Except AErr String × AdapterState × List Event) :=
  match (if 0 < identity.length then parseRes.map some
         else Except.ok none : Except String (Option Nat)) with
  | .error e => some (.error (.malformed e), st, [])
  | .ok nid =>
    match queryRes with
    | .error e => some (.error (.underlying e), st, [Event.query nid qs])
    | .ok conn =>
      (setConnection st uuid (some conn)).map
        (fun st2 => (.ok uuid, st2, [Event.query nid qs]))

/-- `QueryName`: issue the query by name (`queryRes` is the result of
`astral.QueryName`) and on success store the stream under `uuid`. -/
def QueryName (st : AdapterState) (name qs : String)
    (queryRes : Except String Nat) (uuid : String) :
    Option (Except AErr String × AdapterState × List Event) :=
  match queryRes with
  | .error e => some (.error (.underlying e), st, [Event.queryName name qs])
  | .ok conn =>
    (setConnection st uuid (some conn)).map
      (fun st2 => (.ok uuid, st2, [Event.queryName name qs]))

/-- Execution state: the adapter plus the number of uuid draws made so far
(the generator `uuids : Nat → String` is external; call `k` consumes
`uuids k`). -/
structure World where
  st : AdapterState
  uuidCount : Nat
deriving DecidableEq

/-- One invocation of a public operation, bundled with the responses the
external collaborator gives during it (the environment chooses them). -/
inductive Action where
  | serviceRegister (service : String) (regRes : Except String Nat)
  | serviceClose (service : String) (closeRes : Option String)
  | connAccept (service : String) (acceptRes : Except String Nat)
  | connClose (cid : String) (closeRes : Option String)
  | connWrite (cid : String) (data : List Nat) (writeRes : Option String)
  | connRead (cid : String) (reads : List ReadResult)
  | queryAct (identity qs : String) (parseRes : Except String Nat)
      (queryRes : Except String Nat)
  | queryNameAct (name qs : String) (queryRes : Except String Nat)
  | closeAdapter

/-- Execute one action. `none` models a Go panic aborting the run. The
returned list holds the connection identifiers this call handed to the
embedding host; a uuid is drawn exactly on the success paths where the
source calls `uuid.New()`. -/
def step (uuids : Nat → String) (w : World) : Action → Option (World × List String)
  | .serviceRegister s r =>
    (ServiceRegister w.st s r).map (fun o => (⟨o.2.1, w.uuidCount⟩, []))
  | .serviceClose s r =>
    (ServiceClose w.st s r).map (fun o => (⟨o.2.1, w.uuidCount⟩, []))
  | .connAccept s r =>
    (ConnAccept w.st s r (uuids w.uuidCount)).map (fun o =>
      match o.1 with
      | .ok cid => (⟨o.2.1, w.uuidCount + 1⟩, [cid])
      | .error _ => (⟨o.2.1, w.uuidCount⟩, []))
  | .connClose cid r =>
    (ConnClose w.st cid r).map (fun o => (⟨o.2.1, w.uuidCount⟩, []))
  | .connWrite cid d r =>
    some (let _ := ConnWrite w.st cid d r; (⟨w.st, w.uuidCount⟩, []))
  | .connRead cid reads =>
    some (let _ := ConnRead w.st cid reads; (⟨w.st, w.uuidCount⟩, []))
  | .queryAct i qs p r =>
    (Query w.st i qs p r (uuids w.uuidCount)).map (fun o =>
      match o.1 with
      | .ok cid => (⟨o.2.1, w.uuidCount + 1⟩, [cid])
      | .error _ => (⟨o.2.1, w.uuidCount⟩, []))
  | .queryNameAct n qs r =>
    (QueryName w.st n qs r (uuids w.uuidCount)).map (fun o =>
      match o.1 with
      | .ok cid => (⟨o.2.1, w.uuidCount + 1⟩, [cid])
      | .error _ => (⟨o.2.1, w.uuidCount⟩, []))
  | .closeAdapter =>
    some (⟨(CloseAppHostFlatAdapter w.st (fun _ => none)).1, w.uuidCount⟩, [])

/-- Run a sequence of actions, collecting every connection identifier
returned to the host; a panic stops the run. -/
def run (uuids : Nat → String) : World → List Action → World × List String
  | w, [] => (w, [])
  | w, a :: rest =>
    match step uuids w a with
    | none => (w, [])
    | some (w2, issued) =>
      let r := run uuids w2 rest
      (r.1, issued ++ r.2)

/-- A concrete pre-shutdown state: service "svc" registered with listener
handle 1, connection "cid" open with stream handle 2 (used as the test
input of several theorems). -/
def st0 : AdapterState :=
  { closed := false
    listeners := some [("svc", 1)]
    connections := some [("cid", 2)] }

/-- An injective stand-in for the uuid generator, used to instantiate
freshness hypotheses at concrete inputs. -/
def natId (n : Nat) : String := String.mk (List.replicate n 'a')

theorem natId_injective : Function.Injective natId := by
  intro a b h
  have hlen := congrArg String.length h
  simpa [natId, String.length] using hlen

/-! ### Helper lemmas about the registries -/

theorem mapLookup_erase_self (m : List (String × Nat)) (k : String) :
    mapLookup (mapErase m k) k = none := by
  induction m with
  | nil => rfl
  | cons p rest ih =>
    by_cases hp : p.1 = k
    · simpa [mapErase, hp] using ih
    · simpa [mapErase, mapLookup, hp] using ih

theorem getListener_some (st : AdapterState) (s : String) (l : Nat)
    (h : getListener st s = some l) :
    st.closed = false ∧ ∃ m, st.listeners = some m ∧ mapLookup m s = some l := by
  unfold getListener at h
  by_cases hc : st.closed
  · simp [hc] at h
  · cases hm : st.listeners with
    | none => rw [hm] at h; simp [hc] at h
    | some m =>
      rw [hm] at h
      simp only [hc, if_false] at h
      exact ⟨by simpa using hc, m, rfl, h⟩

theorem getConnection_some (st : AdapterState) (s : String) (c : Nat)
    (h : getConnection st s = some c) :
    st.closed = false ∧ ∃ m, st.connections = some m ∧ mapLookup m s = some c := by
  unfold getConnection at h
  by_cases hc : st.closed
  · simp [hc] at h
  · cases hm : st.connections with
    | none => rw [hm] at h; simp [hc] at h
    | some m =>
      rw [hm] at h
      simp only [hc, if_false] at h
      exact ⟨by simpa using hc, m, rfl, h⟩

/-! ### C1 — ServiceClose entry-removal policy -/

/-- C1 counterexample. The claim states a failed underlying close leaves
the service entry in the registry and a successful close removes it; on the
concrete state `st0` the code does the opposite: the failed close
(`Close` returned "boom") removes the entry for "svc", and the successful
close leaves it stored under listener handle 1. -/
theorem serviceClose_claimed_policy_false :
    (ServiceClose st0 "svc" (some "boom")).map
        (fun o => (o.1, getListener o.2.1 "svc"))
      = some (some (.underlying "boom"), none) ∧
    (ServiceClose st0 "svc" none).map
        (fun o => (o.1, getListener o.2.1 "svc"))
      = some (none, some 1) := by
  constructor <;> rfl

/-- C1 (amended): for every registered service name, ServiceClose removes
the listener's registry entry only if the underlying listener close fails
(the close error is propagated and the entry is no longer discoverable);
when the underlying close succeeds, the registry is left unchanged and the
entry remains. -/
theorem serviceClose_removes_entry_only_on_failed_close
    (st : AdapterState) (service : String) (l : Nat) (e : String)
    (h : getListener st service = some l) :
    (∃ st2, ServiceClose st service (some e)
        = some (some (.underlying e), st2, [Event.listenerClose l]) ∧
      getListener st2 service = none) ∧
    ServiceClose st service none = some (none, st, [Event.listenerClose l]) := by
  rcases getListener_some st service l h with ⟨hc, m, hm, _⟩
  refine ⟨⟨{ st with listeners := some (mapErase m service) }, ?_, ?_⟩, ?_⟩
  · simp [ServiceClose, h, setListener, hc, hm]
  · simp [getListener, hc, mapLookup_erase_self]
  · simp [ServiceClose, h]

/-- C1 witness: the amended theorem applied to `st0`. -/
theorem serviceClose_removes_entry_only_on_failed_close_witness :
    ServiceClose st0 "svc" none = some (none, st0, [Event.listenerClose 1]) :=
  (serviceClose_removes_entry_only_on_failed_close st0 "svc" 1 "boom" (by decide)).2

/-! ### C2 — ConnClose entry-removal policy -/

/-- C2 counterexample. The claim states ConnClose removes the connection's
entry regardless of whether the underlying close reported an error; on the
concrete state `st0`, a close whose underlying `Close` returns "boom"
propagates the error and leaves the entry for "cid" (stream handle 2) in
the registry. -/
theorem connClose_removes_regardless_false :
    (ConnClose st0 "cid" (some "boom")).map
        (fun o => (o.1, getConnection o.2.1 "cid"))
      = some (some (.underlying "boom"), some 2) := by
  rfl

/-- C2 (amended): for every live connection identifier, ConnClose removes
the registry entry only when the underlying stream close succeeds; a
failed close propagates the error and leaves the entry in place. After a
successful ConnClose, read/write/close on that identifier fail with
NotFound. -/
theorem connClose_removes_entry_only_on_successful_close
    (st : AdapterState) (cid : String) (c : Nat) (e : String)
    (h : getConnection st cid = some c) :
    ConnClose st cid (some e)
      = some (some (.underlying e), st, [Event.connClose c]) ∧
    (∃ st2, ConnClose st cid none = some (none, st2, [Event.connClose c]) ∧
      getConnection st2 cid = none ∧
      (∀ reads, ConnRead st2 cid reads
        = (.error (.notFound ("[ConnRead] not found connection with id: " ++ cid)), [])) ∧
      (∀ d w, ConnWrite st2 cid d w
        = (some (.notFound ("[ConnWrite] not found connection with id: " ++ cid)), [])) ∧
      (∀ r, ConnClose st2 cid r
        = some (some (.notFound ("[ConnClose] not found connection with id: " ++ cid)),
            st2, []))) := by
  rcases getConnection_some st cid c h with ⟨hc, m, hm, _⟩
  have hget2 : getConnection { st with connections := some (mapErase m cid) } cid = none := by
    simp [getConnection, hc, mapLookup_erase_self]
  refine ⟨?_, ⟨{ st with connections := some (mapErase m cid) }, ?_, hget2, ?_, ?_, ?_⟩⟩
  · simp [ConnClose, h]
  · simp [ConnClose, h, setConnection, hc, hm]
  · intro reads; simp [ConnRead, hget2]
  · intro d w; simp [ConnWrite, hget2]
  · intro r; simp [ConnClose, hget2]

/-- C2 witness: the amended theorem applied to `st0`. -/
theorem connClose_removes_entry_only_on_successful_close_witness :
    ConnClose st0 "cid" (some "boom")
      = some (some (.underlying "boom"), st0, [Event.connClose 2]) :=
  (connClose_removes_entry_only_on_successful_close st0 "cid" 2 "boom" (by decide)).1

/-! ### C3 / C9 — ConnRead accumulation loop -/

theorem connReadLoop_ok_cons_full (bs : List Nat) (rest : List ReadResult)
    (acc : List Nat) (h : ¬ bs.length < bufSize) :
    connReadLoop (.ok bs :: rest) acc = connReadLoop rest (acc ++ bs) := by
  simp [connReadLoop, h]

theorem connReadLoop_blocked_iff (reads : List ReadResult) (acc : List Nat) :
    connReadLoop reads acc = .blocked ↔
      ∀ r ∈ reads, ∃ bs, r = ReadResult.ok bs ∧ bufSize ≤ bs.length := by
  induction reads generalizing acc with
  | nil => simp [connReadLoop]
  | cons r rest ih =>
    cases r with
    | err e =>
      constructor
      · intro h; exact ReadOutcome.noConfusion h
      · intro h
        rcases h (ReadResult.err e) (by simp) with ⟨bs, hbs, _⟩
        exact ReadResult.noConfusion hbs
    | ok bs =>
      by_cases hlt : bs.length < bufSize
      · rw [show connReadLoop (.ok bs :: rest) acc = .done (acc ++ bs) none by
          simp [connReadLoop, hlt]]
        constructor
        · intro h; exact ReadOutcome.noConfusion h
        · intro h
          rcases h (ReadResult.ok bs) (by simp) with ⟨bs2, hbs2, hge⟩
          cases hbs2
          omega
      · rw [connReadLoop_ok_cons_full bs rest acc hlt, ih]
        constructor
        · intro h r hr
          rcases List.mem_cons.mp hr with h1 | h2
          · exact ⟨bs, h1, by omega⟩
          · exact h r h2
        · intro h r hr
          exact h r (List.mem_cons_of_mem _ hr)

/-- C3: on a live connection identifier, ConnRead runs the accumulation
loop over the stream's read results, and the loop (i) returns the
accumulator with the error as soon as a read errs, (ii) appends a short
read's bytes and returns them with no error, (iii) keeps reading after a
read that exactly fills the buffer, and (iv) runs forever (blocks on the
next read) exactly when every supplied read was a buffer-filling success —
so it stops exactly at the first error or short read. -/
theorem connRead_accumulation_policy :
    (∀ (st : AdapterState) (cid : String) (c : Nat) (reads : List ReadResult),
      getConnection st cid = some c →
        ConnRead st cid reads = (.ok (connReadLoop reads []), [Event.connRead c])) ∧
    (∀ (e : String) (rest : List ReadResult) (acc : List Nat),
      connReadLoop (.err e :: rest) acc = .done acc (some e)) ∧
    (∀ (bs : List Nat) (rest : List ReadResult) (acc : List Nat),
      bs.length < bufSize →
        connReadLoop (.ok bs :: rest) acc = .done (acc ++ bs) none) ∧
    (∀ (bs : List Nat) (rest : List ReadResult) (acc : List Nat),
      bufSize ≤ bs.length →
        connReadLoop (.ok bs :: rest) acc = connReadLoop rest (acc ++ bs)) ∧
    (∀ (reads : List ReadResult) (acc : List Nat),
      connReadLoop reads acc = .blocked ↔
        ∀ r ∈ reads, ∃ bs, r = ReadResult.ok bs ∧ bufSize ≤ bs.length) := by
  refine ⟨?_, ?_, ?_, ?_, connReadLoop_blocked_iff⟩
  · intro st cid c reads h; simp [ConnRead, h]
  · intro e rest acc; rfl
  · intro bs rest acc h; simp [connReadLoop, h]
  · intro bs rest acc h; exact connReadLoop_ok_cons_full bs rest acc (Nat.not_lt.mpr h)

/-- C3 witness: a single short read on the live connection of `st0`. -/
theorem connRead_accumulation_policy_witness :
    ConnRead st0 "cid" [ReadResult.ok [7]]
      = (.ok (.done [7] none), [Event.connRead 2]) := by
  rw [connRead_accumulation_policy.1 st0 "cid" 2 [ReadResult.ok [7]] (by decide)]
  rfl

theorem connReadLoop_full_prefix_then_err (pre : List (List Nat)) (e : String)
    (rest : List ReadResult) (acc : List Nat)
    (hfull : ∀ bs ∈ pre, bs.length = bufSize) :
    connReadLoop (pre.map ReadResult.ok ++ ReadResult.err e :: rest) acc
      = .done (acc ++ pre.flatten) (some e) := by
  induction pre generalizing acc with
  | nil => simp [connReadLoop]
  | cons bs pre ih =>
    have hbs : bs.length = bufSize := hfull bs (by simp)
    have hnl : ¬ bs.length < bufSize := by omega
    have ih2 := ih (acc ++ bs) (fun b hb => hfull b (List.mem_cons_of_mem _ hb))
    calc connReadLoop ((bs :: pre).map ReadResult.ok ++ ReadResult.err e :: rest) acc
        = connReadLoop (pre.map ReadResult.ok ++ ReadResult.err e :: rest) (acc ++ bs) :=
          connReadLoop_ok_cons_full bs _ acc hnl
      _ = .done ((acc ++ bs) ++ pre.flatten) (some e) := ih2
      _ = .done (acc ++ (bs :: pre).flatten) (some e) := by
          simp [List.append_assoc]

/-- C9: when the stream delivers one or more buffer-filling reads and then
errs, ConnRead returns the bytes accumulated before the error together
with the error — the deferred `data = string(arr)` assignment converts the
accumulator on the error path too, so the partial data is not discarded. -/
theorem connRead_error_keeps_partial_data
    (st : AdapterState) (cid : String) (c : Nat)
    (pre : List (List Nat)) (e : String) (rest : List ReadResult)
    (hc : getConnection st cid = some c)
    (hfull : ∀ bs ∈ pre, bs.length = bufSize) :
    ConnRead st cid (pre.map ReadResult.ok ++ ReadResult.err e :: rest)
      = (.ok (.done pre.flatten (some e)), [Event.connRead c]) := by
  simp [ConnRead, hc, connReadLoop_full_prefix_then_err pre e rest [] hfull]

/-- C9 witness: one full 4096-byte read, then an end-of-stream error. -/
theorem connRead_error_keeps_partial_data_witness :
    ConnRead st0 "cid"
        ([List.replicate bufSize 0].map ReadResult.ok ++ ReadResult.err "EOF" :: [])
      = (.ok (.done ([List.replicate bufSize 0]).flatten (some "EOF")), [Event.connRead 2]) :=
  connRead_error_keeps_partial_data st0 "cid" 2 [List.replicate bufSize 0] "EOF" []
    (by decide)
    (fun bs hb => by
      rw [List.mem_singleton] at hb
      rw [hb]
      exact List.length_replicate bufSize 0)

/-! ### C4 — registries after shutdown -/

/-- C4: in every state with the shutdown flag set, both registry lookups
report not-found and both registry writes (insert and delete alike) are
silent no-ops returning the state unchanged, so no post-shutdown operation
can observe or store a registry entry. -/
theorem shutdown_lookups_fail_and_writes_noop
    (st : AdapterState) (h : st.closed = true) (service cid : String) (l c : Nat) :
    getListener st service = none ∧
    getConnection st cid = none ∧
    setListener st service (some l) = some st ∧
    setListener st service none = some st ∧
    setConnection st cid (some c) = some st ∧
    setConnection st cid none = some st := by
  refine ⟨?_, ?_, ?_, ?_, ?_, ?_⟩
  · simp [getListener, h]
  · simp [getConnection, h]
  · simp [setListener, h]
  · simp [setListener, h]
  · simp [setConnection, h]
  · simp [setConnection, h]

/-- C4 witness: the post-shutdown state with nil maps. -/
theorem shutdown_lookups_fail_and_writes_noop_witness :
    getListener { closed := true, listeners := none, connections := none } "svc" = none :=
  (shutdown_lookups_fail_and_writes_noop
    { closed := true, listeners := none, connections := none } rfl "svc" "cid" 1 2).1

/-! ### C6 — dead identifiers fail with NotFound -/

/-- C6: for every connection identifier with no live registry entry
(never issued, removed, or adapter shut down), ConnRead, ConnWrite and
ConnClose fail with the NotFound error built at their lookup branch,
issue no call on any underlying stream (empty event trace), and leave the
state unchanged. -/
theorem dead_id_ops_fail_notFound
    (st : AdapterState) (cid : String) (h : getConnection st cid = none)
    (reads : List ReadResult) (d : List Nat) (w r : Option String) :
    ConnRead st cid reads
      = (.error (.notFound ("[ConnRead] not found connection with id: " ++ cid)), []) ∧
    ConnWrite st cid d w
      = (some (.notFound ("[ConnWrite] not found connection with id: " ++ cid)), []) ∧
    ConnClose st cid r
      = some (some (.notFound ("[ConnClose] not found connection with id: " ++ cid)),
          st, []) := by
  refine ⟨?_, ?_, ?_⟩ <;> simp [ConnRead, ConnWrite, ConnClose, h]

/-- C6 witness: an identifier never issued on the fresh adapter. -/
theorem dead_id_ops_fail_notFound_witness :
    ConnRead NewAppHostFlatAdapter "ghost" []
      = (.error (.notFound ("[ConnRead] not found connection with id: " ++ "ghost")), []) :=
  (dead_id_ops_fail_notFound NewAppHostFlatAdapter "ghost" (by decide) [] [] none none).1

/-! ### C7 — malformed identity fails before any side effect -/

/-- C7: when a non-empty identity string fails to parse, Query returns the
MalformedInput error before issuing any underlying query (no event) and
before any registry interaction (state unchanged, no identifier stored);
and with an empty identity the parser result is never consulted — the
outcome is the same whatever the parse oracle would have answered. -/
theorem query_malformed_identity_fails_early
    (st : AdapterState) (identity qs e : String)
    (queryRes : Except String Nat) (uuid : String)
    (hne : 0 < identity.length) :
    Query st identity qs (.error e) queryRes uuid
      = some (.error (.malformed e), st, []) ∧
    (∀ p1 p2 r u, Query st "" qs p1 r u = Query st "" qs p2 r u) := by
  constructor
  · simp [Query, hne, Except.map]
  · intro p1 p2 r u
    have h0 : ¬ 0 < "".length := by decide
    simp [Query, h0]

/-- C7 witness: a non-empty unparsable identity on the fresh adapter. -/
theorem query_malformed_identity_fails_early_witness :
    Query NewAppHostFlatAdapter "zz" "ping" (.error "bad key") (.ok 3) "u"
      = some (.error (.malformed "bad key"), NewAppHostFlatAdapter, []) :=
  (query_malformed_identity_fails_early NewAppHostFlatAdapter "zz" "ping" "bad key"
    (.ok 3) "u" (by decide)).1

/-! ### C8 — adapter shutdown -/

/-- C8: shutdown calls Close on every stored listener and every stored
connection, its outcome is the same whatever errors those closes return
(and it never fails — it is total), it clears both registries and sets the
shutdown flag; afterwards read/write/close on any connection identifier
fail with NotFound. -/
theorem closeAdapter_closes_all_and_seals
    (st : AdapterState) (f g : Nat → Option String) :
    (∀ p ∈ st.listeners.getD [],
      Event.listenerClose p.2 ∈ (CloseAppHostFlatAdapter st f).2) ∧
    (∀ p ∈ st.connections.getD [],
      Event.connClose p.2 ∈ (CloseAppHostFlatAdapter st f).2) ∧
    CloseAppHostFlatAdapter st f = CloseAppHostFlatAdapter st g ∧
    (CloseAppHostFlatAdapter st f).1
      = { closed := true, listeners := none, connections := none } ∧
    (∀ cid reads, ConnRead (CloseAppHostFlatAdapter st f).1 cid reads
      = (.error (.notFound ("[ConnRead] not found connection with id: " ++ cid)), [])) ∧
    (∀ cid d w, ConnWrite (CloseAppHostFlatAdapter st f).1 cid d w
      = (some (.notFound ("[ConnWrite] not found connection with id: " ++ cid)), [])) ∧
    (∀ cid r, ConnClose (CloseAppHostFlatAdapter st f).1 cid r
      = some (some (.notFound ("[ConnClose] not found connection with id: " ++ cid)),
          (CloseAppHostFlatAdapter st f).1, [])) := by
  refine ⟨?_, ?_, rfl, rfl, ?_, ?_, ?_⟩
  · intro p hp
    simp only [CloseAppHostFlatAdapter, List.mem_append, List.mem_map]
    exact Or.inl ⟨p, hp, rfl⟩
  · intro p hp
    simp only [CloseAppHostFlatAdapter, List.mem_append, List.mem_map]
    exact Or.inr ⟨p, hp, rfl⟩
  · intro cid reads; simp [ConnRead, getConnection, CloseAppHostFlatAdapter]
  · intro cid d w; simp [ConnWrite, getConnection, CloseAppHostFlatAdapter]
  · intro cid r; simp [ConnClose, getConnection, CloseAppHostFlatAdapter]

/-- C8 witness: shutdown of `st0` (one listener, one connection) issues a
close call on both stored handles. -/
theorem closeAdapter_closes_all_and_seals_witness :
    Event.listenerClose 1 ∈ (CloseAppHostFlatAdapter st0 (fun _ => none)).2 ∧
    Event.connClose 2 ∈ (CloseAppHostFlatAdapter st0 (fun _ => none)).2 :=
  ⟨(closeAdapter_closes_all_and_seals st0 (fun _ => none) (fun _ => some "x")).1
      ("svc", 1) (by decide),
    (closeAdapter_closes_all_and_seals st0 (fun _ => none) (fun _ => some "x")).2.1
      ("cid", 2) (by decide)⟩

/-! ### C10 — no nil-map write is reachable after shutdown -/

/-- C10: shutdown leaves both registry maps nil; every subsequent
setListener / setConnection call sees the shutdown flag and returns before
touching the map (returning the state unchanged, no panic), while the same
write with the flag cleared would hit the nil map and panic (`none`) — the
flag check is what makes the nil-map write unreachable. -/
theorem post_shutdown_writes_never_hit_nil_map
    (st : AdapterState) (f : Nat → Option String) (s cid : String) (l c : Nat) :
    ((CloseAppHostFlatAdapter st f).1.listeners = none ∧
      (CloseAppHostFlatAdapter st f).1.connections = none) ∧
    setListener (CloseAppHostFlatAdapter st f).1 s (some l)
      = some (CloseAppHostFlatAdapter st f).1 ∧
    setConnection (CloseAppHostFlatAdapter st f).1 cid (some c)
      = some (CloseAppHostFlatAdapter st f).1 ∧
    setListener { (CloseAppHostFlatAdapter st f).1 with closed := false } s (some l)
      = none ∧
    setConnection { (CloseAppHostFlatAdapter st f).1 with closed := false } cid (some c)
      = none := by
  exact ⟨⟨rfl, rfl⟩, rfl, rfl, rfl, rfl⟩

/-! ### C5 — issued connection identifiers are unique -/

theorem connAccept_ok_id (st : AdapterState) (s : String) (r : Except String Nat)
    (u : String) (o : Except AErr String × AdapterState × List Event)
    (h : ConnAccept st s r u = some o) (cid : String) (hc : o.1 = .ok cid) :
    cid = u := by
  unfold ConnAccept at h
  cases hg : getListener st s with
  | none =>
    rw [hg] at h
    injection h with h1
    rw [← h1] at hc
    exact Except.noConfusion hc
  | some l =>
    rw [hg] at h
    cases r with
    | error e =>
      injection h with h1
      rw [← h1] at hc
      exact Except.noConfusion hc
    | ok conn =>
      rcases Option.map_eq_some'.mp h with ⟨st2, _, ho⟩
      rw [← ho] at hc
      exact (Except.ok.inj hc).symm

theorem query_ok_id (st : AdapterState) (i qs : String)
    (p r : Except String Nat) (u : String)
    (o : Except AErr String × AdapterState × List Event)
    (h : Query st i qs p r u = some o) (cid : String) (hc : o.1 = .ok cid) :
    cid = u := by
  unfold Query at h
  cases hp : (if 0 < i.length then p.map some else Except.ok none :
      Except String (Option Nat)) with
  | error e =>
    rw [hp] at h
    injection h with h1
    rw [← h1] at hc
    exact Except.noConfusion hc
  | ok nid =>
    rw [hp] at h
    cases r with
    | error e =>
      injection h with h1
      rw [← h1] at hc
      exact Except.noConfusion hc
    | ok conn =>
      rcases Option.map_eq_some'.mp h with ⟨st2, _, ho⟩
      rw [← ho] at hc
      exact (Except.ok.inj hc).symm

theorem queryName_ok_id (st : AdapterState) (n qs : String)
    (r : Except String Nat) (u : String)
    (o : Except AErr String × AdapterState × List Event)
    (h : QueryName st n qs r u = some o) (cid : String) (hc : o.1 = .ok cid) :
    cid = u := by
  unfold QueryName at h
  cases r with
  | error e =>
    injection h with h1
    rw [← h1] at hc
    exact Except.noConfusion hc
  | ok conn =>
    rcases Option.map_eq_some'.mp h with ⟨st2, _, ho⟩
    rw [← ho] at hc
    exact (Except.ok.inj hc).symm

/-- Any step either issues no identifier and keeps the uuid counter, or
issues exactly the next uuid and advances the counter by one. -/
theorem step_shape (uuids : Nat → String) (w : World) (a : Action)
    (w2 : World) (issued : List String)
    (h : step uuids w a = some (w2, issued)) :
    (issued = [] ∧ w2.uuidCount = w.uuidCount) ∨
    (issued = [uuids w.uuidCount] ∧ w2.uuidCount = w.uuidCount + 1) := by
  cases a with
  | serviceRegister s r =>
    simp only [step] at h
    rcases Option.map_eq_some'.mp h with ⟨o, _, ho⟩
    cases ho
    exact Or.inl ⟨rfl, rfl⟩
  | serviceClose s r =>
    simp only [step] at h
    rcases Option.map_eq_some'.mp h with ⟨o, _, ho⟩
    cases ho
    exact Or.inl ⟨rfl, rfl⟩
  | connAccept s r =>
    simp only [step] at h
    rcases Option.map_eq_some'.mp h with ⟨o, hop, ho⟩
    cases hr : o.1 with
    | ok cid =>
      rw [hr] at ho
      have hcid : cid = uuids w.uuidCount := connAccept_ok_id _ _ _ _ _ hop cid hr
      cases ho
      exact Or.inr ⟨by rw [hcid], rfl⟩
    | error e =>
      rw [hr] at ho
      cases ho
      exact Or.inl ⟨rfl, rfl⟩
  | connClose cid r =>
    simp only [step] at h
    rcases Option.map_eq_some'.mp h with ⟨o, _, ho⟩
    cases ho
    exact Or.inl ⟨rfl, rfl⟩
  | connWrite cid d r =>
    simp only [step] at h
    injection h with h1
    cases h1
    exact Or.inl ⟨rfl, rfl⟩
  | connRead cid reads =>
    simp only [step] at h
    injection h with h1
    cases h1
    exact Or.inl ⟨rfl, rfl⟩
  | queryAct i qs p r =>
    simp only [step] at h
    rcases Option.map_eq_some'.mp h with ⟨o, hop, ho⟩
    cases hr : o.1 with
    | ok cid =>
      rw [hr] at ho
      have hcid : cid = uuids w.uuidCount := query_ok_id _ _ _ _ _ _ _ hop cid hr
      cases ho
      exact Or.inr ⟨by rw [hcid], rfl⟩
    | error e =>
      rw [hr] at ho
      cases ho
      exact Or.inl ⟨rfl, rfl⟩
  | queryNameAct n qs r =>
    simp only [step] at h
    rcases Option.map_eq_some'.mp h with ⟨o, hop, ho⟩
    cases hr : o.1 with
    | ok cid =>
      rw [hr] at ho
      have hcid : cid = uuids w.uuidCount := queryName_ok_id _ _ _ _ _ _ hop cid hr
      cases ho
      exact Or.inr ⟨by rw [hcid], rfl⟩
    | error e =>
      rw [hr] at ho
      cases ho
      exact Or.inl ⟨rfl, rfl⟩
  | closeAdapter =>
    simp only [step] at h
    injection h with h1
    cases h1
    exact Or.inl ⟨rfl, rfl⟩

/-- The identifiers a run hands out are the uuid stream applied to the
consecutive counter values consumed during the run. -/
theorem run_issued_range (uuids : Nat → String) (w : World) (acts : List Action) :
    ∃ k, (run uuids w acts).2 = (List.range' w.uuidCount k).map uuids ∧
      (run uuids w acts).1.uuidCount = w.uuidCount + k := by
  induction acts generalizing w with
  | nil => exact ⟨0, rfl, rfl⟩
  | cons a rest ih =>
    simp only [run]
    cases hs : step uuids w a with
    | none => exact ⟨0, rfl, rfl⟩
    | some p =>
      obtain ⟨w2, issued⟩ := p
      rcases ih w2 with ⟨k, hk1, hk2⟩
      rcases step_shape uuids w a w2 issued hs with ⟨h1, h2⟩ | ⟨h1, h2⟩
      · exact ⟨k, by simp [h1, hk1, h2], by simp [hk2, h2]⟩
      · refine ⟨k + 1, ?_, ?_⟩
        · dsimp only
          rw [h1, hk1, h2, List.range'_succ, List.map_cons]
          rfl
        · dsimp only
          rw [hk2, h2]
          omega

/-- C5: starting from a fresh adapter, as long as the external uuid
generator never repeats (its contract), the connection identifiers handed
out by ConnAccept and successful Query/QueryName over any sequence of
operations are pairwise distinct — no identifier is ever issued twice, so
none is reused after its entry is removed. -/
theorem issued_connection_ids_unique (uuids : Nat → String)
    (hinj : Function.Injective uuids) (acts : List Action) :
    (run uuids ⟨NewAppHostFlatAdapter, 0⟩ acts).2.Nodup := by
  rcases run_issued_range uuids ⟨NewAppHostFlatAdapter, 0⟩ acts with ⟨k, hk, _⟩
  rw [hk]
  exact (List.nodup_range' 0 k).map hinj

/-- C5 witness: two successful name queries under an injective generator
yield distinct identifiers. -/
theorem issued_connection_ids_unique_witness :
    (run natId ⟨NewAppHostFlatAdapter, 0⟩
      [Action.queryNameAct "n" "q" (.ok 5),
       Action.queryNameAct "n" "q" (.ok 6)]).2.Nodup :=
  issued_connection_ids_unique natId natId_injective
    [Action.queryNameAct "n" "q" (.ok 5), Action.queryNameAct "n" "q" (.ok 6)]

end AppHost
